import Mathlib

/-!
Shallow embedding of the `hooks/` guard scripts of this repository and proofs
of the frozen specification claims about them.

Each Python hook reads one JSON event from stdin, classifies it with regular
expressions, and exits 0 (allow / warn) or 2 (block), possibly printing a
message.  The embedding models:

* the event (`ToolEvent`, with absent JSON fields defaulting to `""`),
* malformed stdin JSON as `Option ToolEvent = none`,
* the transcript file system as a function `FileSys` from paths to
  `Option` (readable) lists of lines, each line being an `Option TRecord`
  (`none` = line failed JSON decoding),
* each concrete regular expression of the source as an executable scanning
  function over `List Char`, faithful to Python `re` semantics on ASCII text
  (word chars `[A-Za-z0-9_]`, whitespace `[ \t\n\r\x0b\x0c]`, `.` not
  matching newline, non-overlapping leftmost `findall` counts),
* each hook's `main` as a total function to a `HookResult` carrying the exit
  code, the verdict (allow / warn / block) and the decision message emitted
  with it.  The hooks' purely diagnostic debug logging is not part of the
  decision message.
-/

namespace HookSpec

/-! ### Character classes and basic scanning primitives -/

/-- Python `\w` on ASCII text: letters, digits and underscore. -/
def isWordChar (c : Char) : Bool := c.isAlphanum || c == '_'

/-- Python `\s` on ASCII text. -/
def isSpaceChar (c : Char) : Bool :=
  c == ' ' || c == '\t' || c == '\n' || c == '\r' || c == '\x0b' || c == '\x0c'

/-- Consume a literal from the front of the input; `none` on mismatch. -/
def consumeLit : List Char → List Char → Option (List Char)
  | [], s => some s
  | _ :: _, [] => none
  | a :: as, c :: cs => if a == c then consumeLit as cs else none

/-- Is the first list a prefix of the second? -/
def prefixList : List Char → List Char → Bool
  | [], _ => true
  | _ :: _, [] => false
  | a :: as, b :: bs => a == b && prefixList as bs

/-- Is the first list a contiguous sublist of the second? -/
def infixList (n : List Char) : List Char → Bool
  | [] => n.isEmpty
  | c :: rest => prefixList n (c :: rest) || infixList n rest

/-- Python `needle in hay` on strings. -/
def strContains (hay needle : String) : Bool := infixList needle.data hay.data

/-- Python `str.lower()` on ASCII text: char-wise lower-casing.  (Defined
    char-wise so that it reduces in the kernel, unlike `String.toLower`.) -/
def pyLower (s : String) : String := String.mk (s.data.map Char.toLower)

/-- Python `hay.endswith suffix`. -/
def strEndsWith (hay suffix : String) : Bool :=
  prefixList suffix.data.reverse hay.data.reverse

/-- Python `str.strip()`: drop leading and trailing whitespace. -/
def pyStripList (s : List Char) : List Char :=
  ((s.dropWhile isSpaceChar).reverse.dropWhile isSpaceChar).reverse

def pyStrip (s : String) : String := String.mk (pyStripList s.data)

/-- Split on newline characters, like Python `str.split '\n'`. -/
def splitLinesAux : List Char → List Char → List (List Char)
  | acc, [] => [acc.reverse]
  | acc, c :: rest =>
      if c == '\n' then acc.reverse :: splitLinesAux [] rest
      else splitLinesAux (c :: acc) rest

def splitLines (s : List Char) : List (List Char) := splitLinesAux [] s

/-- The 66-character double-line rule of the blocking boxes. -/
def hruleD : String := String.mk (List.replicate 66 '═')

/-- The 66-character light-line rule of the warning boxes. -/
def hruleL : String := String.mk (List.replicate 66 '─')

/-- Python format `{s:<n}`: left-align, pad with spaces to width `n`. -/
def padR (s : String) (n : Nat) : String :=
  s ++ String.mk (List.replicate (n - s.length) ' ')

/-- `\b` holds before a word char iff the previous char (if any) is not one. -/
def boundaryOk (prev : Option Char) : Bool :=
  match prev with
  | none => true
  | some c => !isWordChar c

/-- `\b` holds after a word char iff the next char (if any) is not one. -/
def boundaryAfter : List Char → Bool
  | [] => true
  | c :: _ => !isWordChar c

/-- CPS helper: consume a literal then continue. -/
def afterLit (lit : List Char) (k : List Char → Bool) (s : List Char) : Bool :=
  match consumeLit lit s with
  | some r => k r
  | none => false

/-- CPS helper: consume `\s+` (maximal, at least one char) then continue. -/
def afterWs1 (k : List Char → Bool) (s : List Char) : Bool :=
  let n := (s.takeWhile isSpaceChar).length
  n != 0 && k (s.drop n)

/-- CPS helper: consume `\s*` (maximal) then continue. -/
def afterWs0 (k : List Char → Bool) (s : List Char) : Bool :=
  k (s.drop (s.takeWhile isSpaceChar).length)

/-- Run a position predicate at every position of the input (with the
    preceding character tracked for `\b`), as Python `re.search` does. -/
def scanPos (f : Option Char → List Char → Bool) : Option Char → List Char → Bool
  | prev, [] => f prev []
  | prev, c :: rest => f prev (c :: rest) || scanPos f (some c) rest

/-! ### Commit/push guard: `hooks/block-git-commit.py` -/

/-- `\bLIT\b` at a position (literal starting and ending in word chars). -/
def wordAt (lit : List Char) (prev : Option Char) (s : List Char) : Bool :=
  boundaryOk prev && afterLit lit boundaryAfter s

/-- `\bgit\s+LIT\b` at a position. -/
def gitWordAt (lit : List Char) (prev : Option Char) (s : List Char) : Bool :=
  boundaryOk prev && afterLit "git".data (afterWs1 (afterLit lit boundaryAfter)) s

/-- Scan for `--amend\b` along a `.*` span (which cannot cross a newline). -/
def dashAmendScan : List Char → Bool
  | [] => false
  | c :: rest =>
      afterLit "--amend".data boundaryAfter (c :: rest) ||
        (c != '\n' && dashAmendScan rest)

/-- `\bgit\s+.*--amend\b` at a position. -/
def gitAmendAt (prev : Option Char) (s : List Char) : Bool :=
  boundaryOk prev && afterLit "git".data (afterWs1 dashAmendScan) s

/-- `(a\s+)?K`: optional `a` followed by whitespace, then the continuation. -/
def optArticle (k : List Char → Bool) (s : List Char) : Bool :=
  afterLit "a".data (afterWs1 k) s || k s

/-- `\bcreate\s+(a\s+)?pr\b` at a position. -/
def createPrAt (prev : Option Char) (s : List Char) : Bool :=
  boundaryOk prev &&
    afterLit "create".data (afterWs1 (optArticle (afterLit "pr".data boundaryAfter))) s

/-- `\bcreate\s+(a\s+)?pull\s*request\b` at a position. -/
def createPullRequestAt (prev : Option Char) (s : List Char) : Bool :=
  boundaryOk prev &&
    afterLit "create".data
      (afterWs1 (optArticle
        (afterLit "pull".data (afterWs0 (afterLit "request".data boundaryAfter))))) s

/-- `EXPLICIT_REQUEST_PATTERNS`: any of the seven explicit-request regexes
    matches the (already lower-cased) message text. -/
def anyExplicitRequest (content_lower : String) : Bool :=
  let l := content_lower.data
  scanPos (wordAt "commit".data) none l ||
  scanPos (wordAt "push".data) none l ||
  scanPos (gitWordAt "commit".data) none l ||
  scanPos (gitWordAt "push".data) none l ||
  scanPos createPrAt none l ||
  scanPos createPullRequestAt none l ||
  scanPos (wordAt "merge".data) none l

/-- One content block of a transcript record: a JSON dict with an optional
    `text` field, or a non-dict value (which contributes nothing). -/
inductive BlockVal where
  | dict (text : Option String)
  | nondict
deriving DecidableEq

/-- The `content` field of a transcript record's inner message. -/
inductive ContentVal where
  | str (s : String)
  | blocks (bs : List BlockVal)
  | other
deriving DecidableEq

/-- The `message` field of a transcript record. -/
inductive MessageVal where
  | dict (content : Option ContentVal)
  | nondict
  | absent
deriving DecidableEq

/-- One JSON-decoded transcript record (one line of the transcript file). -/
structure TRecord where
  type? : Option String := none
  message : MessageVal := .absent
deriving DecidableEq

/-- `message.get('type', '<no type>') in ('human', 'user', 'user_message')`. -/
def isUserType (r : TRecord) : Bool :=
  let t := r.type?.getD "<no type>"
  t == "human" || t == "user" || t == "user_message"

/-- Resolve a record's message text as the source does: nested
    `message.content`, joining the `text` of dict blocks with single spaces;
    `none` means the content is not ultimately a string and the record is
    skipped. -/
def recordContent (r : TRecord) : Option String :=
  match r.message with
  | .absent => some ""
  | .nondict => some ""
  | .dict none => some ""
  | .dict (some (.str s)) => some s
  | .dict (some (.blocks bs)) =>
      some (String.intercalate " "
        (bs.filterMap (fun b =>
          match b with
          | .dict t => some (t.getD "")
          | .nondict => none)))
  | .dict (some .other) => none

/-- Does one transcript record count as an explicit commit/push request? -/
def recordMatches (r : TRecord) : Bool :=
  isUserType r &&
    match recordContent r with
    | some s => anyExplicitRequest (pyLower s)
    | none => false

/-- Scan transcript lines in file order; the first matching record resolves
    the scan to `true` (short-circuit).  `none` lines (JSON decode errors)
    are skipped. -/
def scanTranscript : List (Option TRecord) → Bool
  | [] => false
  | none :: rest => scanTranscript rest
  | some r :: rest => recordMatches r || scanTranscript rest

/-- The transcript-reading environment: `none` models a missing/unreadable
    file (`FileNotFoundError`, `PermissionError`, `IOError`). -/
def FileSys : Type := String → Option (List (Option TRecord))

/-- `check_user_requested_commit`: empty path or unreadable file yields
    `False`; otherwise scan the lines. -/
def check_user_requested_commit (transcript_path : String) (fs : FileSys) : Bool :=
  if transcript_path = "" then false
  else
    match fs transcript_path with
    | none => false
    | some ls => scanTranscript ls

/-- The `git_patterns` command classification of `main`:
    `\bgit\s+commit\b`, `\bgit\s+push\b`, `\bgit\s+.*--amend\b`,
    case-insensitively. -/
def isGitCommitPush (command : String) : Bool :=
  let l := (pyLower command).data
  scanPos (gitWordAt "commit".data) none l ||
  scanPos (gitWordAt "push".data) none l ||
  scanPos gitAmendAt none l

/-- Final verdict of one hook invocation. -/
inductive Verdict where
  | allow
  | warn
  | block
deriving DecidableEq

/-- Outcome of one hook invocation: process exit code, verdict, and the
    decision message emitted with the verdict (empty when silent). -/
structure HookResult where
  exitCode : Nat
  verdict : Verdict
  message : String
deriving DecidableEq

/-- The silent-allow outcome (exit 0, no message). -/
def allowSilent : HookResult := { exitCode := 0, verdict := .allow, message := "" }

/-- The part of the commit-guard box before the echoed command. -/
def blockGitMsgPre : String :=
  "\n╔" ++ hruleD ++ "╗\n║  BLOCKED: Git commit/push requires explicit user request         ║\n╠" ++ hruleD ++ "╣\n║                                                                  ║\n║  Command: "

/-- The part of the commit-guard box after the echoed command. -/
def blockGitMsgPost : String :=
  "  ║\n║                                                                  ║\n║  No explicit commit/push request found in conversation.          ║\n║                                                                  ║\n║  REMINDER: Do NOT commit or push unless explicitly requested.    ║\n║                                                                  ║\n║  - Each commit request is a ONE-TIME action                      ║\n║  - Always let the user review changes first                      ║\n║  - Never auto-commit subsequent changes                          ║\n║                                                                  ║\n║  ASK: \"Would you like me to commit these changes?\"               ║\n║                                                                  ║\n╚" ++ hruleD ++ "╝\n"

/-- The blocking message of `block-git-commit.py`, echoing the command
    truncated to 50 characters and padded to width 50. -/
def blockGitCommitMessage (command : String) : String :=
  blockGitMsgPre ++ padR (command.take 50) 50 ++ blockGitMsgPost

/-- The `tool_input` mapping of an event; absent JSON fields default to
    the empty string, as `dict.get(..., '')` does. -/
structure ToolInput where
  command : String := ""
  file_path : String := ""
  old_string : String := ""
  new_string : String := ""
  content : String := ""
deriving DecidableEq

/-- The single JSON event a hook reads from stdin. -/
structure ToolEvent where
  tool_name : String := ""
  tool_input : ToolInput := {}
  transcript_path : String := ""
deriving DecidableEq

/-- `main` of `block-git-commit.py`.  The `Option` input is the parsed stdin
    document, `none` when JSON decoding failed. -/
def blockGitCommitMain (input_data : Option ToolEvent) (fs : FileSys) : HookResult :=
  match input_data with
  | none => allowSilent
  | some ev =>
      if isGitCommitPush ev.tool_input.command then
        if check_user_requested_commit ev.transcript_path fs then allowSilent
        else
          { exitCode := 2, verdict := .block,
            message := blockGitCommitMessage ev.tool_input.command }
      else allowSilent

/-! ### Snippet-marker guard: `hooks/protect-snippet-markers.py` -/

/-- Split at the first occurrence of `needle`, returning the part before it
    and the part after it; `none` when absent. -/
def splitFirstAt (needle : List Char) : List Char → Option (List Char × List Char)
  | [] => if needle.isEmpty then some ([], []) else none
  | c :: rest =>
      match consumeLit needle (c :: rest) with
      | some r => some ([], r)
      | none =>
          match splitFirstAt needle rest with
          | some (pre, post) => some (c :: pre, post)
          | none => none

/-- First match of `<!-- snippet: ([^\s]+) -->`, returning the captured id.
    `[^\s]+` is a maximal nonempty run of non-whitespace (a shorter run would
    be followed by a non-space character where the literal space of ` -->`
    is required). -/
def extractSnippetId : List Char → Option String
  | [] => none
  | c :: rest =>
      (match consumeLit "<!-- snippet: ".data (c :: rest) with
       | some r =>
           let run := r.takeWhile (fun ch => !isSpaceChar ch)
           if run.isEmpty then none
           else
             match consumeLit " -->".data (r.drop run.length) with
             | some _ => some (String.mk run)
             | none => none
       | none => none).orElse (fun _ => extractSnippetId rest)

/-- After `<!-- snippet:`: `[^>]+-->` then the lazy group up to the first
    `<!-- /snippet -->`.  The `>` consumed by `[^>]+-->` is necessarily the
    first `>` of the remainder, so `before` must end in `--` with at least
    one captured character ahead of the dashes. -/
def innerAfterOpen (r : List Char) : Option (List Char) :=
  match splitFirstAt ['>'] r with
  | none => none
  | some (before, after) =>
      if prefixList ['-', '-'] before.reverse && decide (3 ≤ before.length) then
        match splitFirstAt "<!-- /snippet -->".data after with
        | some (inner, _) => some inner
        | none => none
      else none

/-- First match of `<!-- snippet:[^>]+-->(.*?)<!-- /snippet -->` (DOTALL),
    returning group 1. -/
def snippetInner : List Char → Option (List Char)
  | [] => none
  | c :: rest =>
      (match consumeLit "<!-- snippet:".data (c :: rest) with
       | some r => innerAfterOpen r
       | none => none).orElse (fun _ => snippetInner rest)

/-- The `reason` of the snippet guard's opening-marker block decision. -/
def snippetOpenRemovalMsg (snippet_id : String) : String :=
  "\nBLOCKED: Snippet marker removal detected\n\nYou are removing the snippet marker for " ++
  ("'" ++ snippet_id ++ "'") ++
  " without removing\nthe entire snippet block.\n\nSnippet markers sync code from docs/samples/ projects. To modify snippet content:\n\n1. Update the corresponding code in docs/samples/ project\n   - Find the #region " ++
  snippet_id ++
  " marker\n   - Modify the code there (it must compile and have tests)\n\n2. Run the sync script:\n   .\\scripts\\extract-snippets.ps1 -Update\n\n3. The documentation will be updated automatically\n\nIf you need to REMOVE a snippet entirely:\n- Remove from opening marker through closing marker (<!-- /snippet -->)\n- Also remove the corresponding #region from docs/samples/\n\nNever modify snippet content directly in documentation files.\n"

/-- The `reason` of the snippet guard's closing-marker block decision. -/
def snippetClosingRemovalMsg : String :=
  "\nBLOCKED: Snippet closing marker removal detected\n\nYou are removing a snippet closing marker (<!-- /snippet -->) which will\nbreak the snippet sync system.\n\nTo modify snippet content:\n1. Update code in docs/samples/ project\n2. Run: .\\scripts\\extract-snippets.ps1 -Update\n\nTo remove a snippet entirely:\n- Remove from opening marker through closing marker\n"

/-- The snippet guard's in-place-edit warning text. -/
def snippetContentWarnMsg : String :=
  "\nWARNING: Modifying snippet content directly\n\nYou are modifying content inside a snippet block. This content is synced\nfrom docs/samples/ and your changes may be overwritten.\n\nRecommended workflow:\n1. Update code in docs/samples/ project (so it compiles and has tests)\n2. Run: .\\scripts\\extract-snippets.ps1 -Update\n\nProceeding with direct edit...\n"

/-- `main` of `protect-snippet-markers.py`.  Its block decisions are emitted
    as a structured `{decision: block, reason}` JSON object on stdout and the
    process exits 0; the `verdict` field records that decision. -/
def protectSnippetMarkersMain (input_data : Option ToolEvent) : HookResult :=
  match input_data with
  | none => allowSilent
  | some ev =>
      if ev.tool_name ≠ "Edit" then allowSilent
      else
        let old_string := ev.tool_input.old_string
        let new_string := ev.tool_input.new_string
        if old_string = "" then allowSilent
        else
          let old_has_opening := strContains old_string "<!-- snippet:"
          let old_has_closing := strContains old_string "<!-- /snippet -->"
          let new_has_opening := strContains new_string "<!-- snippet:"
          let new_has_closing := strContains new_string "<!-- /snippet -->"
          if old_has_opening && old_has_closing && !new_has_opening && !new_has_closing then
            allowSilent
          else if old_has_opening && !new_has_opening then
            let snippet_id := (extractSnippetId old_string.data).getD "unknown"
            { exitCode := 0, verdict := .block,
              message := snippetOpenRemovalMsg snippet_id }
          else if old_has_closing && !new_has_closing && !old_has_opening then
            { exitCode := 0, verdict := .block, message := snippetClosingRemovalMsg }
          else if old_has_opening && new_has_opening && old_has_closing && new_has_closing then
            match snippetInner old_string.data, snippetInner new_string.data with
            | some old_content, some new_content =>
                if old_content ≠ new_content then
                  { exitCode := 0, verdict := .warn, message := snippetContentWarnMsg }
                else allowSilent
            | _, _ => allowSilent
          else allowSilent

/-! ### Assertion-removal guard: `hooks/protect-test-assertions.py` -/

/-- `is_test_file`: the fixed list of test-path indicators. -/
def is_test_file (file_path : String) : Bool :=
  ["/Unit/", "/Tests/", "/Test/", "Test.cs", "Tests.cs", "_test.py", "_tests.py",
   ".test.ts", ".test.js", ".spec.ts", ".spec.js"].any
    (fun indicator => strContains file_path indicator)

/-- Length of the leading `\w*` run. -/
def wordRunLen (s : List Char) : Nat := (s.takeWhile isWordChar).length

/-- Greedy match length of `\bAssert\.\w+` (IGNORECASE: input pre-lowered). -/
def assertDotLen (prev : Option Char) (s : List Char) : Option Nat :=
  if boundaryOk prev then
    match consumeLit "assert.".data s with
    | some r =>
        let k := wordRunLen r
        if k == 0 then none else some (7 + k)
    | none => none
  else none

/-- Greedy match length of `\b\.Should\w*\(` (the `\b` before `.` requires a
    word character on the left). -/
def dotShouldLen (prev : Option Char) (s : List Char) : Option Nat :=
  match prev with
  | some p =>
      if isWordChar p then
        match consumeLit ".should".data s with
        | some r =>
            let k := wordRunLen r
            match consumeLit "(".data (r.drop k) with
            | some _ => some (7 + k + 1)
            | none => none
        | none => none
      else none
  | none => none

/-- Greedy match length of `\bExpect\(`. -/
def expectCallLen (prev : Option Char) (s : List Char) : Option Nat :=
  if boundaryOk prev then
    match consumeLit "expect(".data s with
    | some _ => some 7
    | none => none
  else none

/-- Greedy match length of `\bassert\s+`. -/
def assertStmtLen (prev : Option Char) (s : List Char) : Option Nat :=
  if boundaryOk prev then
    match consumeLit "assert".data s with
    | some r =>
        let n := (r.takeWhile isSpaceChar).length
        if n == 0 then none else some (6 + n)
    | none => none
  else none

/-- Match length of a plain literal family such as `\[Fact\]`. -/
def litFamLen (lit : List Char) (_prev : Option Char) (s : List Char) : Option Nat :=
  match consumeLit lit s with
  | some _ => some lit.length
  | none => none

/-- Greedy match length of `@Test\b`. -/
def atTestLen (_prev : Option Char) (s : List Char) : Option Nat :=
  match consumeLit "@test".data s with
  | some r => if boundaryAfter r then some 5 else none
  | none => none

/-- Greedy match length of `\bit\(`. -/
def itCallLen (prev : Option Char) (s : List Char) : Option Nat :=
  if boundaryOk prev then
    match consumeLit "it(".data s with
    | some _ => some 3
    | none => none
  else none

/-- Greedy match length of `\bdescribe\(`. -/
def describeCallLen (prev : Option Char) (s : List Char) : Option Nat :=
  if boundaryOk prev then
    match consumeLit "describe(".data s with
    | some _ => some 9
    | none => none
  else none

/-- Non-overlapping leftmost match count (`re.findall` length): scan left to
    right; on a match, resume after it; otherwise advance one character.
    The fuel is the remaining input length, which every step consumes. -/
def countPatAux (f : Option Char → List Char → Option Nat) :
    Nat → Option Char → List Char → Nat
  | 0, _, _ => 0
  | _ + 1, _, [] => 0
  | fuel + 1, prev, c :: rest =>
      match f prev (c :: rest) with
      | some n =>
          if n == 0 then 1 + countPatAux f fuel (some c) rest
          else 1 + countPatAux f fuel ((c :: rest).get? (n - 1)) ((c :: rest).drop n)
      | none => countPatAux f fuel (some c) rest

def countPat (f : Option Char → List Char → Option Nat) (s : List Char) : Nat :=
  countPatAux f s.length none s

/-- `assertion_patterns`: the eleven families, in source order, each with the
    regex source text used in the block reason. -/
def assertionFamilies : List (String × (Option Char → List Char → Option Nat)) :=
  [("\\bAssert\\.\\w+", assertDotLen),
   ("\\b\\.Should\\w*\\(", dotShouldLen),
   ("\\bExpect\\(", expectCallLen),
   ("\\bassert\\s+", assertStmtLen),
   ("\\[Fact\\]", litFamLen "[fact]".data),
   ("\\[Theory\\]", litFamLen "[theory]".data),
   ("\\[Test\\]", litFamLen "[test]".data),
   ("\\[TestMethod\\]", litFamLen "[testmethod]".data),
   ("@Test\\b", atTestLen),
   ("\\bit\\(", itCallLen),
   ("\\bdescribe\\(", describeCallLen)]

/-- The family loop of `check_assertion_removal`: first family whose count
    strictly decreases yields the block reason. -/
def familyViolation (ol nl : List Char) :
    List (String × (Option Char → List Char → Option Nat)) → Option String
  | [] => none
  | (pname, m) :: rest =>
      let old_matches := countPat m ol
      let new_matches := countPat m nl
      if new_matches < old_matches then
        some ("Removing " ++ pname ++ " (" ++ toString old_matches ++ " → " ++
          toString new_matches ++ ")")
      else familyViolation ol nl rest

/-- Greedy match length of `public\s+(async\s+)?Task\s+\w+\s*\(`
    (case-sensitive).  When `async` is present but not followed by
    whitespace and `Task`, the groupless alternative cannot match either,
    so the sequential reading below is equivalent to backtracking. -/
def testMethodLen (_prev : Option Char) (s : List Char) : Option Nat :=
  match consumeLit "public".data s with
  | none => none
  | some r1 =>
      let w1 := (r1.takeWhile isSpaceChar).length
      if w1 == 0 then none
      else
        let r2 := r1.drop w1
        let step :=
          match consumeLit "async".data r2 with
          | some ra =>
              let wa := (ra.takeWhile isSpaceChar).length
              if wa == 0 then (0, r2) else (5 + wa, ra.drop wa)
          | none => (0, r2)
        match consumeLit "Task".data step.2 with
        | none => none
        | some r4 =>
            let w2 := (r4.takeWhile isSpaceChar).length
            if w2 == 0 then none
            else
              let r5 := r4.drop w2
              let k := wordRunLen r5
              if k == 0 then none
              else
                let r6 := r5.drop k
                let w3 := (r6.takeWhile isSpaceChar).length
                match consumeLit "(".data (r6.drop w3) with
                | some _ => some (6 + w1 + step.1 + 4 + w2 + k + w3 + 1)
                | none => none

/-- `check_assertion_removal`: returns `(should_block, reason)`. -/
def check_assertion_removal (old_string new_string : String) : Bool × String :=
  let ol := (pyLower old_string).data
  let nl := (pyLower new_string).data
  match familyViolation ol nl assertionFamilies with
  | some reason => (true, reason)
  | none =>
      if strContains new_string ("//" ++ pyStrip old_string) ||
         strContains new_string ("// " ++ pyStrip old_string) then
        (true, "Commenting out test code instead of fixing it")
      else
        let old_methods := countPat testMethodLen old_string.data
        let new_methods := countPat testMethodLen new_string.data
        if old_methods > 0 && new_methods < old_methods then
          (true, "Removing test methods (" ++ toString old_methods ++ " → " ++
            toString new_methods ++ ")")
        else (false, "")

/-- The boxed blocking message of `protect-test-assertions.py`, embedding the
    reason truncated to 60 characters and padded to width 60. -/
def assertBoxMessage (reason : String) : String :=
  "\n╔" ++ hruleD ++ "╗\n║  BLOCKED: Test assertion removal detected                        ║\n╠" ++ hruleD ++ "╣\n║                                                                  ║\n║  " ++
  padR (reason.take 60) 60 ++
  "  ║\n║                                                                  ║\n║  EXISTING TESTS ARE SACRED!                                      ║\n║                                                                  ║\n║  What counts as \"gutting\" a test (NEVER do these):               ║\n║  - Removing or commenting out assertions                         ║\n║  - Removing test cases or edge cases                             ║\n║  - Changing expected values to match broken behavior             ║\n║  - Commenting out or deleting tests                              ║\n║                                                                  ║\n║  If a test is failing, STOP and ASK:                             ║\n║  1. Should I fix the underlying issue?                           ║\n║  2. Add this to the bug list?                                    ║\n║  3. Is this expected breakage from my changes?                   ║\n║                                                                  ║\n╚" ++ hruleD ++ "╝\n"

/-- `main` of `protect-test-assertions.py`. -/
def protectTestAssertionsMain (input_data : Option ToolEvent) : HookResult :=
  match input_data with
  | none => allowSilent
  | some ev =>
      if !is_test_file ev.tool_input.file_path then allowSilent
      else if ev.tool_input.old_string = "" then allowSilent
      else
        let res := check_assertion_removal ev.tool_input.old_string ev.tool_input.new_string
        if res.1 then
          { exitCode := 2, verdict := .block, message := assertBoxMessage res.2 }
        else allowSilent

/-! ### Test-double guard: `hooks/check-test-double.py` -/

/-- `copied\s+from` at a position (IGNORECASE: input pre-lowered). -/
def copiedFromAt (s : List Char) : Bool :=
  afterLit "copied".data (afterWs1 (afterLit "from".data (fun _ => true))) s

/-- `copy\s+of` at a position. -/
def copyOfAt (s : List Char) : Bool :=
  afterLit "copy".data (afterWs1 (afterLit "of".data (fun _ => true))) s

/-- `duplicated?\s+from` at a position. -/
def duplicatedFromAt (s : List Char) : Bool :=
  afterLit "duplicate".data
    (fun r =>
      afterLit "d".data (afterWs1 (afterLit "from".data (fun _ => true))) r ||
      afterWs1 (afterLit "from".data (fun _ => true)) r) s

/-- `same\s+as\s+production` at a position. -/
def sameAsProductionAt (s : List Char) : Bool :=
  afterLit "same".data
    (afterWs1 (afterLit "as".data (afterWs1 (afterLit "production".data (fun _ => true))))) s

/-- `mirrors?\s+the\s+(real|actual|production)` at a position. -/
def mirrorsTheAt (s : List Char) : Bool :=
  let tail := afterWs1 (afterLit "the".data (afterWs1 (fun r2 =>
    afterLit "real".data (fun _ => true) r2 ||
    afterLit "actual".data (fun _ => true) r2 ||
    afterLit "production".data (fun _ => true) r2)))
  afterLit "mirror".data (fun r => afterLit "s".data tail r || tail r) s

/-- `copied_patterns` with the regex source text used in the block reason,
    evaluated in source order; first match wins. -/
def copiedPatterns : List (String × (List Char → Bool)) :=
  [("copied\\s+from", copiedFromAt),
   ("copy\\s+of", copyOfAt),
   ("duplicated?\\s+from", duplicatedFromAt),
   ("same\\s+as\\s+production", sameAsProductionAt),
   ("mirrors?\\s+the\\s+(real|actual|production)", mirrorsTheAt)]

def firstCopiedReason (low : List Char) : Option String :=
  (copiedPatterns.find? (fun pr => scanPos (fun _ => pr.2) none low)).map
    (fun pr => "Contains comment indicating copied logic (pattern: '" ++ pr.1 ++ "')")

/-- `(?:public|private|protected)` at a position (pre-lowered input). -/
def pppAt (s : List Char) : Option (List Char) :=
  (consumeLit "public".data s).orElse (fun _ =>
    (consumeLit "private".data s).orElse (fun _ => consumeLit "protected".data s))

/-- `(?:public|private|protected)\s+\w+\s+\w+\s*\([^)]*\)\s*(?:=>|{)` at a
    position: a method signature with a concrete implementation body. -/
def methodSigAt (s : List Char) : Bool :=
  match pppAt s with
  | none => false
  | some r =>
      afterWs1 (fun r2 =>
        let k := wordRunLen r2
        k != 0 &&
          afterWs1 (fun r3 =>
            let k2 := wordRunLen r3
            k2 != 0 &&
              afterWs0 (afterLit "(".data (fun r4 =>
                match splitFirstAt [')'] r4 with
                | none => false
                | some (_, r5) =>
                    afterWs0 (fun r6 =>
                      afterLit "=>".data (fun _ => true) r6 ||
                      afterLit "\x7b".data (fun _ => true) r6) r5)) (r3.drop k2)) (r2.drop k)) r

/-- Scan of the `[^}]*` span for a method signature. -/
def scanBody2 : List Char → Bool
  | [] => false
  | c :: rest => methodSigAt (c :: rest) || (c != '}' && scanBody2 rest)

/-- The `\w*TestDouble\w*\s*\{...` pattern at a position, after
    `private\s+class\s+`: the whole (maximal) word run must contain
    `testdouble`, since any shorter `\w*` tail would leave a word character
    where `\s*\{` must match. -/
def testDoubleClassAt (s : List Char) : Bool :=
  afterLit "private".data
    (afterWs1 (afterLit "class".data (afterWs1 (fun r =>
      let run := r.takeWhile isWordChar
      infixList "testdouble".data run &&
        afterWs0 (afterLit "\x7b".data scanBody2) (r.drop run.length))))) s

/-- Tail of pattern 3 after `return`: `\s+[^;]+\s*[!=<>]+\s*[^;]+;` matches
    iff the text after `return` starts with whitespace and, before its first
    `;`, has a comparison character at an index `p` with `2 ≤ p ≤ len - 2`
    (one whitespace char, a nonempty `[^;]+` before the operator, and a
    nonempty `[^;]+` after it). -/
def returnTailOk (U : List Char) : Bool :=
  match U with
  | [] => false
  | u0 :: _ =>
      isSpaceChar u0 &&
        match splitFirstAt [';'] U with
        | none => false
        | some (pre, _) =>
            ((pre.drop 2).dropLast).any
              (fun c => c == '!' || c == '=' || c == '<' || c == '>')

/-- Scan of the `[^}]*` span for `return` followed by comparison logic. -/
def scanBody3 : List Char → Bool
  | [] => false
  | c :: rest =>
      (match consumeLit "return".data (c :: rest) with
       | some U => returnTailOk U
       | none => false) || (c != '}' && scanBody3 rest)

/-- `private\s+class\s+\w+\s*\{[^}]*return\s+[^;]+\s*[!=<>]+\s*[^;]+;`
    (case-sensitive, DOTALL) at a position. -/
def privateClassReturnAt (s : List Char) : Bool :=
  afterLit "private".data
    (afterWs1 (afterLit "class".data (afterWs1 (fun r =>
      let k := wordRunLen r
      k != 0 && afterWs0 (afterLit "\x7b".data scanBody3) (r.drop k))))) s

/-- `check_for_copied_logic`: returns `(should_block, reason)`. -/
def check_for_copied_logic (content : String) (_file_path : String) : Bool × String :=
  let low := (pyLower content).data
  match firstCopiedReason low with
  | some reason => (true, reason)
  | none =>
      if scanPos (fun _ => testDoubleClassAt) none low then
        (true, "Contains a TestDouble class with method implementations - this may be copying production logic")
      else if scanPos (fun _ => privateClassReturnAt) none content.data then
        (true, "Contains a private class with return statements that include comparison logic - may be copying production logic")
      else (false, "")

/-- The boxed blocking message of `check-test-double.py`. -/
def testDoubleBoxMessage (reason : String) : String :=
  "\n╔" ++ hruleD ++ "╗\n║  BLOCKED: Possible copied production logic detected              ║\n╠" ++ hruleD ++ "╣\n║                                                                  ║\n║  " ++
  padR (reason.take 60) 60 ++
  "  ║\n║                                                                  ║\n║  STOP! This may violate the testing principle:                   ║\n║  \"Test production code, not copies of it\"                        ║\n║                                                                  ║\n║  Before proceeding, ask yourself:                                ║\n║  - Am I testing the REAL production code?                        ║\n║  - Or am I testing a copy that won't catch real bugs?            ║\n║                                                                  ║\n║  If you hit an obstacle (code isn't testable), STOP and ASK:     ║\n║  1. Can the production code be refactored for testability?       ║\n║  2. Should this be an integration test instead?                  ║\n║  3. Is there a KnockOff pattern that works?                      ║\n║                                                                  ║\n╚" ++ hruleD ++ "╝\n"

/-- `main` of `check-test-double.py`. -/
def checkTestDoubleMain (input_data : Option ToolEvent) : HookResult :=
  match input_data with
  | none => allowSilent
  | some ev =>
      let file_path := ev.tool_input.file_path
      if !strContains file_path "/Unit/" && !strContains file_path "/Tests/" &&
          !strContains file_path "Test" then allowSilent
      else
        let check_content :=
          if ev.tool_input.content ≠ "" then ev.tool_input.content
          else ev.tool_input.new_string
        if check_content = "" then allowSilent
        else
          let res := check_for_copied_logic check_content file_path
          if res.1 then
            { exitCode := 2, verdict := .block, message := testDoubleBoxMessage res.2 }
          else allowSilent

/-! ### Commented-code warning: `hooks/warn-commented-code.py` -/

/-- `is_code_file`: fixed allow-list of source extensions. -/
def is_code_file (file_path : String) : Bool :=
  [".cs", ".py", ".ts", ".js", ".tsx", ".jsx", ".java", ".go", ".rs"].any
    (fun ext => strEndsWith file_path ext)

/-- `(compile|work|build)` continuation after `\s+`. -/
def compileWorkBuild : List Char → Bool :=
  afterWs1 (fun r =>
    afterLit "compile".data (fun _ => true) r ||
    afterLit "work".data (fun _ => true) r ||
    afterLit "build".data (fun _ => true) r)

/-- `'?t` followed by the continuation (for `can'?t`, `doesn'?t`, `won'?t`). -/
def optAposT (k : List Char → Bool) (r : List Char) : Bool :=
  afterLit "'t".data k r || afterLit "t".data k r

/-- `//\s*(can'?t|cannot|doesn'?t|won'?t)\s+(compile|work|build)` at a
    position (pre-lowered input). -/
def cantCompileAt (s : List Char) : Bool :=
  afterLit "//".data (afterWs0 (fun r =>
    afterLit "can".data (optAposT compileWorkBuild) r ||
    afterLit "cannot".data compileWorkBuild r ||
    afterLit "doesn".data (optAposT compileWorkBuild) r ||
    afterLit "won".data (optAposT compileWorkBuild) r)) s

/-- `//\s*TODO:?\s*(fix|uncomment|re-?enable)` at a position. -/
def todoFixAt (s : List Char) : Bool :=
  afterLit "//".data (afterWs0 (afterLit "todo".data (fun r =>
    let r2 := match consumeLit ":".data r with | some x => x | none => r
    afterWs0 (fun r3 =>
      afterLit "fix".data (fun _ => true) r3 ||
      afterLit "uncomment".data (fun _ => true) r3 ||
      afterLit "re-enable".data (fun _ => true) r3 ||
      afterLit "reenable".data (fun _ => true) r3) r2))) s

/-- `//\s*HACK:?` at a position (the trailing optional `:` always matches). -/
def hackAt (s : List Char) : Bool :=
  afterLit "//".data (afterWs0 (afterLit "hack".data (fun _ => true))) s

/-- `//\s*commented\s+out\s+(because|since|due)` at a position. -/
def commentedOutBecauseAt (s : List Char) : Bool :=
  afterLit "//".data (afterWs0 (afterLit "commented".data
    (afterWs1 (afterLit "out".data (afterWs1 (fun r =>
      afterLit "because".data (fun _ => true) r ||
      afterLit "since".data (fun _ => true) r ||
      afterLit "due".data (fun _ => true) r)))))) s

/-- `//\s*disabled\s+(because|since|due|for now)` at a position. -/
def disabledBecauseAt (s : List Char) : Bool :=
  afterLit "//".data (afterWs0 (afterLit "disabled".data
    (afterWs1 (fun r =>
      afterLit "because".data (fun _ => true) r ||
      afterLit "since".data (fun _ => true) r ||
      afterLit "due".data (fun _ => true) r ||
      afterLit "for now".data (fun _ => true) r)))) s

/-- `//\s*temporarily\s+(removed|disabled|commented)` at a position. -/
def temporarilyRemovedAt (s : List Char) : Bool :=
  afterLit "//".data (afterWs0 (afterLit "temporarily".data
    (afterWs1 (fun r =>
      afterLit "removed".data (fun _ => true) r ||
      afterLit "disabled".data (fun _ => true) r ||
      afterLit "commented".data (fun _ => true) r)))) s

/-- `workaround_patterns` with their reasons, in source order. -/
def workaroundPatterns : List ((List Char → Bool) × String) :=
  [(cantCompileAt, "Explicit 'can't compile' comment"),
   (todoFixAt, "TODO to fix commented code"),
   (hackAt, "HACK comment"),
   (commentedOutBecauseAt, "Explicit 'commented out because'"),
   (disabledBecauseAt, "Explicit 'disabled because'"),
   (temporarilyRemovedAt, "Temporary removal")]

def firstWorkaroundReason (low : List Char) : Option String :=
  (workaroundPatterns.find? (fun pr => scanPos (fun _ => pr.1) none low)).map
    (fun pr => pr.2)

def isIndentChar (c : Char) : Bool := c == ' ' || c == '\t'

def isAsciiLowerAlpha (c : Char) : Bool := 'a' ≤ c && c ≤ 'z'
def isAsciiUpperAlpha (c : Char) : Bool := 'A' ≤ c && c ≤ 'Z'

/-- `_\w+\.` at a position. -/
def underscoreMemberAt (r : List Char) : Bool :=
  match consumeLit "_".data r with
  | some r2 =>
      let k := wordRunLen r2
      k != 0 && prefixList ".".data (r2.drop k)
  | none => false

/-- `[a-z]+\.[A-Z]` at a position. -/
def lowerDotUpperAt (r : List Char) : Bool :=
  let k := (r.takeWhile isAsciiLowerAlpha).length
  k != 0 &&
    match r.drop k with
    | '.' :: u :: _ => isAsciiUpperAlpha u
    | _ => false

/-- One line of the MEDIUM-confidence pattern:
    `^[ \t]*//[ \t]*(?:var|return|await|if|else|for|foreach|while|try|catch|throw|new|this\.|_\w+\.|[a-z]+\.[A-Z]).*$`
    (case-sensitive). -/
def lineIsCommentedCode (line : List Char) : Bool :=
  match consumeLit "//".data (line.dropWhile isIndentChar) with
  | some r2 =>
      let r3 := r2.dropWhile isIndentChar
      ["var", "return", "await", "if", "else", "for", "foreach", "while", "try",
        "catch", "throw", "new", "this."].any (fun lit => prefixList lit.data r3) ||
        underscoreMemberAt r3 || lowerDotUpperAt r3
  | none => false

/-- Number of maximal runs of at least three consecutive matching lines:
    the `findall` count of the `{3,}`-repeated line group. -/
def countRunsAux : Nat → List Bool → Nat
  | run, [] => if 3 ≤ run then 1 else 0
  | run, b :: rest =>
      if b then countRunsAux (run + 1) rest
      else (if 3 ≤ run then 1 else 0) + countRunsAux 0 rest

def consecutiveCommentedBlocks (content : String) : Nat :=
  countRunsAux 0 ((splitLines content.data).map lineIsCommentedCode)

/-- The `\w+\s*[.=]\s*\w+.*[;{][ \t]*$` tail of the commented-statement
    pattern, from a given position; returns the rest after the match (at the
    end of the line holding the terminating `;`/`{`).  `\s` may cross
    newlines; `.*` may not. -/
def stmtTail (r : List Char) : Option (List Char) :=
  let k := wordRunLen r
  if k == 0 then none
  else
    let r2 := r.drop k
    let r3 := r2.drop (r2.takeWhile isSpaceChar).length
    match r3 with
    | c :: r4 =>
        if c == '.' || c == '=' then
          let r5 := r4.drop (r4.takeWhile isSpaceChar).length
          let k2 := wordRunLen r5
          if k2 == 0 then none
          else
            let r6 := r5.drop k2
            let lineRest := r6.takeWhile (fun ch => ch != '\n')
            match lineRest.reverse.dropWhile isIndentChar with
            | e :: _ =>
                if e == ';' || e == '{' then some (r6.drop lineRest.length) else none
            | [] => none
        else none
    | [] => none

/-- `^[ \t]*//[ \t]*(await\s+)?\w+\s*[.=]\s*\w+.*[;{][ \t]*$` from a
    line-start position; when the optional `await\s+` group matches but the
    tail does not, backtracking retries without the group. -/
def stmtLineMatch (s : List Char) : Option (List Char) :=
  match consumeLit "//".data (s.dropWhile isIndentChar) with
  | none => none
  | some r2 =>
      let r3 := r2.dropWhile isIndentChar
      match consumeLit "await".data r3 with
      | some ra =>
          let wa := (ra.takeWhile isSpaceChar).length
          if wa == 0 then stmtTail r3
          else (stmtTail (ra.drop wa)).orElse (fun _ => stmtTail r3)
      | none => stmtTail r3

/-- Drop the remainder of the current line, including its newline. -/
def skipLine (l : List Char) : List Char := (l.dropWhile (fun c => c != '\n')).drop 1

/-- `findall` count of the commented-statement pattern: the `^` anchor
    restricts match attempts to line starts; a match ends at the end of the
    line that holds its terminator. -/
def countStmtsAux : Nat → List Char → Nat
  | 0, _ => 0
  | _ + 1, [] => 0
  | fuel + 1, s =>
      match stmtLineMatch s with
      | some rest => 1 + countStmtsAux fuel (skipLine rest)
      | none => countStmtsAux fuel (skipLine s)

def commentedStatementsCount (content : String) : Nat :=
  countStmtsAux content.data.length content.data

/-- `check_commented_code`: returns `(should_warn, reason)`. -/
def check_commented_code (content : String) : Bool × String :=
  match firstWorkaroundReason (pyLower content).data with
  | some reason => (true, reason)
  | none =>
      let blocks := consecutiveCommentedBlocks content
      if blocks != 0 then
        (true, "Multiple lines of commented-out code (" ++ toString blocks ++ " blocks)")
      else
        let n := commentedStatementsCount content
        if 2 ≤ n then
          (true, "Commented-out statements (" ++ toString n ++ " found)")
        else (false, "")

/-- The boxed warning of `warn-commented-code.py`, embedding the reason
    padded to width 52. -/
def warnCommentedBoxMessage (reason : String) : String :=
  "\n┌" ++ hruleL ++ "┐\n│  WARNING: Possible commented-out code workaround                 │\n├" ++ hruleL ++ "┤\n│                                                                  │\n│  Detected: " ++
  padR reason 52 ++
  "  │\n│                                                                  │\n│  Is this code commented out because it doesn't compile/work?     │\n│                                                                  │\n│  If YES - this is a workaround. STOP and consider:               │\n│  - Fix the underlying issue                                      │\n│  - Delete the code entirely if not needed                        │\n│  - Ask for guidance if stuck                                     │\n│                                                                  │\n│  If NO - this is intentional pseudocode/documentation:           │\n│  - Proceed (this warning is just a reminder)                     │\n│                                                                  │\n└" ++ hruleL ++ "┘\n"

/-- `main` of `warn-commented-code.py` (always exits 0). -/
def warnCommentedCodeMain (input_data : Option ToolEvent) : HookResult :=
  match input_data with
  | none => allowSilent
  | some ev =>
      if !is_code_file ev.tool_input.file_path then allowSilent
      else
        let check_content :=
          if ev.tool_input.content ≠ "" then ev.tool_input.content
          else ev.tool_input.new_string
        if check_content = "" then allowSilent
        else
          let res := check_commented_code check_content
          if res.1 then
            { exitCode := 0, verdict := .warn, message := warnCommentedBoxMessage res.2 }
          else allowSilent

/-! ### Docs-code warning: `hooks/warn-docs-code.py` -/

/-- `is_docs_markdown`. -/
def is_docs_markdown (file_path : String) : Bool :=
  strContains file_path "/docs/" && strEndsWith file_path ".md"

/-- The fenced-block language alternation
    `(?:csharp|cs|python|py|typescript|ts|javascript|js|java|go|rust)`
    followed by `\n`; at most one alternative can succeed at a position. -/
def tryLang (r : List Char) : Option (List Char) :=
  ["csharp", "cs", "python", "py", "typescript", "ts", "javascript", "js",
    "java", "go", "rust"].firstM (fun tag =>
      (consumeLit tag.data r).bind (fun r2 => consumeLit "\n".data r2))

/-- All fenced code blocks ` ```lang\n(.*?)``` ` (lazy, DOTALL), in order. -/
def findCodeBlocks : Nat → List Char → List (List Char)
  | 0, _ => []
  | _ + 1, [] => []
  | fuel + 1, c :: rest =>
      match (consumeLit "```".data (c :: rest)).bind (fun r =>
          (tryLang r).bind (fun r2 => splitFirstAt "```".data r2)) with
      | some (inner, after) => inner :: findCodeBlocks fuel after
      | none => findCodeBlocks fuel rest

/-- A block is substantial when, after stripping, at least three of its lines
    are nonblank and not comment-only. -/
def isSubstantialBlock (block : List Char) : Bool :=
  3 ≤ ((splitLines (pyStripList block)).filter (fun l =>
    let t := pyStripList l
    !t.isEmpty && !prefixList "//".data t)).length

/-- `check_for_code_blocks`: returns `(should_warn, reason)`.  The whole scan
    runs on the lower-cased text (IGNORECASE tag matching); case does not
    affect the line counting. -/
def check_for_code_blocks (content : String) : Bool × String :=
  let low := (pyLower content).data
  let code_blocks := findCodeBlocks low.length low
  if code_blocks.isEmpty then (false, "")
  else
    let substantial_blocks := code_blocks.filter isSubstantialBlock
    if !substantial_blocks.isEmpty then
      (true, "Found " ++ toString substantial_blocks.length ++ " code block(s) with 3+ lines")
    else (false, "")

/-- The boxed warning of `warn-docs-code.py`, embedding the reason padded to
    width 60. -/
def warnDocsBoxMessage (reason : String) : String :=
  "\n┌" ++ hruleL ++ "┐\n│  WARNING: Code blocks in documentation file                      │\n├" ++ hruleL ++ "┤\n│                                                                  │\n│  " ++
  padR reason 60 ++
  "  │\n│                                                                  │\n│  REMINDER: Documentation Code Examples workflow:                 │\n│                                                                  │\n│  1. Add code to docs/samples/ projects first (so it compiles)    │\n│  2. Mark with #region docs:\x7btarget\x7d:\x7bid\x7d                         │\n│  3. Run extract-snippets script to sync to docs                  │\n│                                                                  │\n│  Never write code directly in documentation - always source      │\n│  from compiled samples to ensure examples actually work.         │\n│                                                                  │\n│  If this is pseudocode/illustration, proceed.                    │\n│                                                                  │\n└" ++ hruleL ++ "┘\n"

/-- `main` of `warn-docs-code.py` (always exits 0). -/
def warnDocsCodeMain (input_data : Option ToolEvent) : HookResult :=
  match input_data with
  | none => allowSilent
  | some ev =>
      if !is_docs_markdown ev.tool_input.file_path then allowSilent
      else
        let check_content :=
          if ev.tool_input.content ≠ "" then ev.tool_input.content
          else ev.tool_input.new_string
        if check_content = "" then allowSilent
        else
          let res := check_for_code_blocks check_content
          if res.1 then
            { exitCode := 0, verdict := .warn, message := warnDocsBoxMessage res.2 }
          else allowSilent

/-! ### Helper lemmas -/

theorem strData_append (a b : String) : (a ++ b).data = a.data ++ b.data := by
  cases a; cases b; rfl

theorem prefixList_self_append (n b : List Char) : prefixList n (n ++ b) = true := by
  induction n with
  | nil => rfl
  | cons c cs ih => simp [prefixList, ih]

theorem infixList_self_append (n b : List Char) : infixList n (n ++ b) = true := by
  cases n with
  | nil => cases b <;> simp [infixList, prefixList]
  | cons c cs =>
      simp only [List.cons_append, infixList]
      simp [prefixList, prefixList_self_append]

theorem infixList_cons (n : List Char) (c : Char) {l : List Char}
    (h : infixList n l = true) : infixList n (c :: l) = true := by
  simp [infixList, h]

theorem infixList_append_left (n a : List Char) {l : List Char}
    (h : infixList n l = true) : infixList n (a ++ l) = true := by
  induction a with
  | nil => simpa using h
  | cons c cs ih => simpa using infixList_cons n c ih

theorem scanTranscript_append_of_match (pre post : List (Option TRecord)) (r : TRecord)
    (hr : recordMatches r = true) : scanTranscript (pre ++ some r :: post) = true := by
  induction pre with
  | nil => simp [scanTranscript, hr]
  | cons hd tl ih => cases hd <;> simp [scanTranscript, ih]

theorem scanTranscript_eq_false {ls : List (Option TRecord)}
    (h : ∀ r ∈ ls, ∀ rec, r = some rec → recordMatches rec = false) :
    scanTranscript ls = false := by
  induction ls with
  | nil => rfl
  | cons hd tl ih =>
      have htl : scanTranscript tl = false :=
        ih (fun r hr rec hrec => h r (List.mem_cons_of_mem _ hr) rec hrec)
      cases hd with
      | none => simpa [scanTranscript] using htl
      | some rec =>
          have hh : recordMatches rec = false := h (some rec) (List.mem_cons_self _ _) rec rfl
          simp [scanTranscript, hh, htl]

set_option maxRecDepth 8192

/-- The commit-guard block message always embeds the command truncated to
    50 characters. -/
theorem blockGitCommitMessage_contains (cmd : String) :
    strContains (blockGitCommitMessage cmd) (cmd.take 50) = true := by
  unfold blockGitCommitMessage padR strContains
  simp only [strData_append, List.append_assoc]
  apply infixList_append_left
  exact infixList_self_append _ _

/-- Per-hook exit-code/verdict case analyses. -/
theorem blockGitCommitMain_code (inp : Option ToolEvent) (fs : FileSys) :
    ((blockGitCommitMain inp fs).exitCode = 0 ∨ (blockGitCommitMain inp fs).exitCode = 2) ∧
    ((blockGitCommitMain inp fs).exitCode = 2 ↔ (blockGitCommitMain inp fs).verdict = .block) := by
  cases inp with
  | none => simp [blockGitCommitMain, allowSilent]
  | some ev =>
      simp only [blockGitCommitMain]
      split_ifs <;> simp [allowSilent]

theorem checkTestDoubleMain_code (inp : Option ToolEvent) :
    ((checkTestDoubleMain inp).exitCode = 0 ∨ (checkTestDoubleMain inp).exitCode = 2) ∧
    ((checkTestDoubleMain inp).exitCode = 2 ↔ (checkTestDoubleMain inp).verdict = .block) := by
  cases inp with
  | none => simp [checkTestDoubleMain, allowSilent]
  | some ev =>
      simp only [checkTestDoubleMain]
      split_ifs <;> simp [allowSilent]

theorem protectTestAssertionsMain_code (inp : Option ToolEvent) :
    ((protectTestAssertionsMain inp).exitCode = 0 ∨ (protectTestAssertionsMain inp).exitCode = 2) ∧
    ((protectTestAssertionsMain inp).exitCode = 2 ↔
      (protectTestAssertionsMain inp).verdict = .block) := by
  cases inp with
  | none => simp [protectTestAssertionsMain, allowSilent]
  | some ev =>
      simp only [protectTestAssertionsMain]
      split_ifs <;> simp [allowSilent]

theorem protectSnippetMarkersMain_exit (inp : Option ToolEvent) :
    (protectSnippetMarkersMain inp).exitCode = 0 := by
  cases inp with
  | none => rfl
  | some ev =>
      simp only [protectSnippetMarkersMain]
      split_ifs <;> first
        | rfl
        | (split <;> first | rfl | (split_ifs <;> rfl))

theorem warnCommentedCodeMain_code (inp : Option ToolEvent) :
    (warnCommentedCodeMain inp).exitCode = 0 ∧ (warnCommentedCodeMain inp).verdict ≠ .block := by
  cases inp with
  | none => simp [warnCommentedCodeMain, allowSilent]
  | some ev =>
      simp only [warnCommentedCodeMain]
      split_ifs <;> simp [allowSilent]

theorem warnDocsCodeMain_code (inp : Option ToolEvent) :
    (warnDocsCodeMain inp).exitCode = 0 ∧ (warnDocsCodeMain inp).verdict ≠ .block := by
  cases inp with
  | none => simp [warnDocsCodeMain, allowSilent]
  | some ev =>
      simp only [warnDocsCodeMain]
      split_ifs <;> simp [allowSilent]

/-- The snippet guard's opening-marker block reason embeds the quoted
    snippet id. -/
theorem snippetOpenRemovalMsg_contains (snippet_id : String) :
    strContains (snippetOpenRemovalMsg snippet_id) ("'" ++ snippet_id ++ "'") = true := by
  unfold snippetOpenRemovalMsg strContains
  simp only [strData_append, List.append_assoc]
  apply infixList_append_left
  simpa [List.append_assoc] using
    infixList_self_append ("'".data ++ (snippet_id.data ++ "'".data))
      (" without removing\nthe entire snippet block.\n\nSnippet markers sync code from docs/samples/ projects. To modify snippet content:\n\n1. Update the corresponding code in docs/samples/ project\n   - Find the #region ".data ++
        (snippet_id.data ++
          " marker\n   - Modify the code there (it must compile and have tests)\n\n2. Run the sync script:\n   .\\scripts\\extract-snippets.ps1 -Update\n\n3. The documentation will be updated automatically\n\nIf you need to REMOVE a snippet entirely:\n- Remove from opening marker through closing marker (<!-- /snippet -->)\n- Also remove the corresponding #region from docs/samples/\n\nNever modify snippet content directly in documentation files.\n".data))

/-! ### Claim theorems -/

/-- C1: for the commit/push guard, if the command matches a commit/push
    action and either the transcript is absent/unreadable or no transcript
    record matches an explicit-request pattern, the hook exits 2 and the
    error-stream message echoes the command truncated to 50 characters. -/
theorem commit_guard_blocks_without_explicit_request
    (ev : ToolEvent) (fs : FileSys)
    (hcmd : isGitCommitPush ev.tool_input.command = true)
    (hno : ev.transcript_path = "" ∨ fs ev.transcript_path = none ∨
      ∃ ls, fs ev.transcript_path = some ls ∧
        ∀ r ∈ ls, ∀ rec, r = some rec → recordMatches rec = false) :
    (blockGitCommitMain (some ev) fs).exitCode = 2 ∧
    (blockGitCommitMain (some ev) fs).verdict = Verdict.block ∧
    strContains (blockGitCommitMain (some ev) fs).message
      (ev.tool_input.command.take 50) = true := by
  have hchk : check_user_requested_commit ev.transcript_path fs = false := by
    unfold check_user_requested_commit
    rcases hno with h | h | ⟨ls, hls, hall⟩
    · simp [h]
    · by_cases he : ev.transcript_path = ""
      · simp [he]
      · rw [if_neg he, h]
    · by_cases he : ev.transcript_path = ""
      · simp [he]
      · rw [if_neg he, hls]
        exact scanTranscript_eq_false hall
  have hmain : blockGitCommitMain (some ev) fs =
      { exitCode := 2, verdict := .block,
        message := blockGitCommitMessage ev.tool_input.command } := by
    simp [blockGitCommitMain, hcmd, hchk]
  rw [hmain]
  exact ⟨rfl, rfl, blockGitCommitMessage_contains ev.tool_input.command⟩

def c1Event : ToolEvent :=
  { tool_name := "Bash", tool_input := { command := "git commit -m hi" } }

def emptyFs : FileSys := fun _ => none

theorem commit_guard_blocks_without_explicit_request_witness :
    (blockGitCommitMain (some c1Event) emptyFs).exitCode = 2 ∧
    (blockGitCommitMain (some c1Event) emptyFs).verdict = Verdict.block ∧
    strContains (blockGitCommitMain (some c1Event) emptyFs).message
      (c1Event.tool_input.command.take 50) = true :=
  commit_guard_blocks_without_explicit_request c1Event emptyFs (by decide)
    (Or.inl rfl)

/-- C2: for the commit/push guard, a commit/push command together with a
    transcript containing a user-authored record whose text matches an
    explicit-request pattern yields exit 0 (allow); a matching record
    resolves the scan no matter what records surround it. -/
theorem commit_guard_allows_on_explicit_request
    (ev : ToolEvent) (fs : FileSys)
    (hcmd : isGitCommitPush ev.tool_input.command = true)
    (hpath : ev.transcript_path ≠ "")
    (pre post : List (Option TRecord)) (r : TRecord)
    (hfs : fs ev.transcript_path = some (pre ++ some r :: post))
    (hr : recordMatches r = true) :
    blockGitCommitMain (some ev) fs = allowSilent := by
  have hchk : check_user_requested_commit ev.transcript_path fs = true := by
    unfold check_user_requested_commit
    rw [if_neg hpath, hfs]
    exact scanTranscript_append_of_match pre post r hr
  simp [blockGitCommitMain, hcmd, hchk]

def c2Event : ToolEvent :=
  { tool_name := "Bash", tool_input := { command := "git commit -m \"x\"" },
    transcript_path := "transcript.jsonl" }

def c2Record : TRecord :=
  { type? := some "user", message := .dict (some (.str "please commit this")) }

def c2Fs : FileSys := fun p =>
  if p = "transcript.jsonl" then some [some c2Record] else none

theorem commit_guard_allows_on_explicit_request_witness :
    blockGitCommitMain (some c2Event) c2Fs = allowSilent :=
  commit_guard_allows_on_explicit_request c2Event c2Fs (by decide) (by decide)
    [] [] c2Record (by decide) (by decide)

/-- C8: for the commit/push guard, a command matching none of the three
    commit/push shapes is always allowed silently, for every transcript
    environment. -/
theorem commit_guard_ignores_other_commands
    (ev : ToolEvent) (fs : FileSys)
    (h : isGitCommitPush ev.tool_input.command = false) :
    blockGitCommitMain (some ev) fs = allowSilent := by
  simp [blockGitCommitMain, h]

def c8Event : ToolEvent :=
  { tool_name := "Bash", tool_input := { command := "git status" },
    transcript_path := "transcript.jsonl" }

def c8Fs : FileSys := fun _ => some [some c2Record]

theorem commit_guard_ignores_other_commands_witness :
    blockGitCommitMain (some c8Event) c8Fs = allowSilent :=
  commit_guard_ignores_other_commands c8Event c8Fs (by decide)

def c3Event : ToolEvent :=
  { tool_name := "Edit",
    tool_input := { file_path := "docs/guide.md",
                    old_string := "<!-- snippet: foo -->x", new_string := "x" } }

/-- C3 counterexample: the snippet guard reaches a block verdict (its
    structured stdout decision) yet exits 0, not 2, refuting "every block
    decision is accompanied by exit status 2". -/
theorem snippet_guard_blocks_with_exit_zero :
    (protectSnippetMarkersMain (some c3Event)).verdict = Verdict.block ∧
    (protectSnippetMarkersMain (some c3Event)).exitCode = 0 := by decide

/-- C3 (amended): every hook exits only 0 or 2; the commit/push, test-double
    and assertion guards exit 2 exactly on a block verdict; the snippet
    guard always exits 0 (its block verdict travels on stdout); the two
    warn-only hooks always exit 0 and never block. -/
theorem hooks_exit_code_contract (inp : Option ToolEvent) (fs : FileSys) :
    ((blockGitCommitMain inp fs).exitCode = 0 ∨ (blockGitCommitMain inp fs).exitCode = 2) ∧
    ((blockGitCommitMain inp fs).exitCode = 2 ↔ (blockGitCommitMain inp fs).verdict = .block) ∧
    ((checkTestDoubleMain inp).exitCode = 0 ∨ (checkTestDoubleMain inp).exitCode = 2) ∧
    ((checkTestDoubleMain inp).exitCode = 2 ↔ (checkTestDoubleMain inp).verdict = .block) ∧
    ((protectTestAssertionsMain inp).exitCode = 0 ∨
      (protectTestAssertionsMain inp).exitCode = 2) ∧
    ((protectTestAssertionsMain inp).exitCode = 2 ↔
      (protectTestAssertionsMain inp).verdict = .block) ∧
    (protectSnippetMarkersMain inp).exitCode = 0 ∧
    (warnCommentedCodeMain inp).exitCode = 0 ∧
    (warnCommentedCodeMain inp).verdict ≠ .block ∧
    (warnDocsCodeMain inp).exitCode = 0 ∧
    (warnDocsCodeMain inp).verdict ≠ .block :=
  ⟨(blockGitCommitMain_code inp fs).1, (blockGitCommitMain_code inp fs).2,
   (checkTestDoubleMain_code inp).1, (checkTestDoubleMain_code inp).2,
   (protectTestAssertionsMain_code inp).1, (protectTestAssertionsMain_code inp).2,
   protectSnippetMarkersMain_exit inp,
   (warnCommentedCodeMain_code inp).1, (warnCommentedCodeMain_code inp).2,
   (warnDocsCodeMain_code inp).1, (warnDocsCodeMain_code inp).2⟩

/-- C4: for every hook, malformed stdin JSON yields exit 0 with no blocking
    output (fail-open). -/
theorem malformed_input_fails_open (fs : FileSys) :
    blockGitCommitMain none fs = allowSilent ∧
    checkTestDoubleMain none = allowSilent ∧
    protectSnippetMarkersMain none = allowSilent ∧
    protectTestAssertionsMain none = allowSilent ∧
    warnCommentedCodeMain none = allowSilent ∧
    warnDocsCodeMain none = allowSilent :=
  ⟨rfl, rfl, rfl, rfl, rfl, rfl⟩

/-- C9: every hook's outcome (exit code, verdict and message) is a pure
    function of the stdin event and the transcript contents: two invocations
    on identical inputs yield identical results. -/
theorem hooks_deterministic
    (i₁ i₂ : Option ToolEvent) (fs₁ fs₂ : FileSys)
    (hi : i₁ = i₂) (hf : fs₁ = fs₂) :
    blockGitCommitMain i₁ fs₁ = blockGitCommitMain i₂ fs₂ ∧
    checkTestDoubleMain i₁ = checkTestDoubleMain i₂ ∧
    protectSnippetMarkersMain i₁ = protectSnippetMarkersMain i₂ ∧
    protectTestAssertionsMain i₁ = protectTestAssertionsMain i₂ ∧
    warnCommentedCodeMain i₁ = warnCommentedCodeMain i₂ ∧
    warnDocsCodeMain i₁ = warnDocsCodeMain i₂ := by
  subst hi; subst hf
  exact ⟨rfl, rfl, rfl, rfl, rfl, rfl⟩

def c9Event : ToolEvent :=
  { tool_name := "Edit",
    tool_input := { file_path := "a/Tests/T.cs", old_string := "Assert.True(x);",
                    new_string := "// done" },
    transcript_path := "t.jsonl" }

theorem hooks_deterministic_witness :
    blockGitCommitMain (some c9Event) emptyFs = blockGitCommitMain (some c9Event) emptyFs ∧
    checkTestDoubleMain (some c9Event) = checkTestDoubleMain (some c9Event) ∧
    protectSnippetMarkersMain (some c9Event) = protectSnippetMarkersMain (some c9Event) ∧
    protectTestAssertionsMain (some c9Event) = protectTestAssertionsMain (some c9Event) ∧
    warnCommentedCodeMain (some c9Event) = warnCommentedCodeMain (some c9Event) ∧
    warnDocsCodeMain (some c9Event) = warnDocsCodeMain (some c9Event) :=
  hooks_deterministic (some c9Event) (some c9Event) emptyFs emptyFs rfl rfl

/-- C10: the assertion guard and the snippet guard both allow silently
    whenever the event's `old_string` is empty or absent — in particular a
    whole-file `Write`, which carries `content` but no `old_string`, is
    never blocked by either guard. -/
theorem empty_old_string_allows
    (ev : ToolEvent)
    (h : ev.tool_input.old_string = "") :
    protectTestAssertionsMain (some ev) = allowSilent ∧
    protectSnippetMarkersMain (some ev) = allowSilent := by
  constructor
  · simp only [protectTestAssertionsMain]
    split_ifs <;> simp_all
  · simp only [protectSnippetMarkersMain]
    split_ifs <;> simp_all

def c10Event : ToolEvent :=
  { tool_name := "Write",
    tool_input := { file_path := "src/Unit/OrderTests.cs",
                    content := "no assertions left here" } }

theorem empty_old_string_allows_witness :
    protectTestAssertionsMain (some c10Event) = allowSilent ∧
    protectSnippetMarkersMain (some c10Event) = allowSilent :=
  empty_old_string_allows c10Event rfl

def c5Event : ToolEvent :=
  { tool_name := "Edit",
    tool_input := { file_path := "docs/guide.md",
                    old_string := "<!-- snippet: foo -->x<!-- /snippet -->",
                    new_string := "<!-- snippet: foo -->x" } }

/-- C5 counterexample: an Edit that removes only the closing marker while
    the opening marker stays in both old and new text is allowed (silently),
    not blocked: no case of the guard covers it. -/
theorem closing_removal_with_opening_kept_is_allowed :
    strContains c5Event.tool_input.old_string "<!-- /snippet -->" = true ∧
    strContains c5Event.tool_input.new_string "<!-- /snippet -->" = false ∧
    strContains c5Event.tool_input.old_string "<!-- snippet:" = true ∧
    strContains c5Event.tool_input.new_string "<!-- snippet:" = true ∧
    protectSnippetMarkersMain (some c5Event) = allowSilent := by decide

/-- C5 (amended): removing the closing marker without removing the opening
    one blocks only when the opening marker is absent from the old text
    altogether; then the verdict is block (stdout decision, exit 0). -/
theorem closing_removal_blocks_when_opening_absent
    (ev : ToolEvent)
    (ht : ev.tool_name = "Edit")
    (hoc : strContains ev.tool_input.old_string "<!-- /snippet -->" = true)
    (hnc : strContains ev.tool_input.new_string "<!-- /snippet -->" = false)
    (hoo : strContains ev.tool_input.old_string "<!-- snippet:" = false) :
    (protectSnippetMarkersMain (some ev)).verdict = Verdict.block ∧
    (protectSnippetMarkersMain (some ev)).exitCode = 0 ∧
    (protectSnippetMarkersMain (some ev)).message = snippetClosingRemovalMsg := by
  have hne : ev.tool_input.old_string ≠ "" := by
    intro he; rw [he] at hoc; exact absurd hoc (by decide)
  have hmain : protectSnippetMarkersMain (some ev) =
      { exitCode := 0, verdict := .block, message := snippetClosingRemovalMsg } := by
    simp [protectSnippetMarkersMain, ht, hne, hoo, hoc, hnc]
  rw [hmain]
  exact ⟨rfl, rfl, rfl⟩

def c5AmendedEvent : ToolEvent :=
  { tool_name := "Edit",
    tool_input := { file_path := "docs/guide.md",
                    old_string := "x<!-- /snippet -->", new_string := "x" } }

theorem closing_removal_blocks_when_opening_absent_witness :
    (protectSnippetMarkersMain (some c5AmendedEvent)).verdict = Verdict.block ∧
    (protectSnippetMarkersMain (some c5AmendedEvent)).exitCode = 0 ∧
    (protectSnippetMarkersMain (some c5AmendedEvent)).message = snippetClosingRemovalMsg :=
  closing_removal_blocks_when_opening_absent c5AmendedEvent rfl (by decide)
    (by decide) (by decide)

/-- C6: on an Edit whose old text contains the opening marker and whose new
    text does not, while the closing marker remains in both, the snippet
    guard blocks and its decision message reports the extracted snippet id
    (quoted). -/
theorem opening_removal_blocks_with_id
    (ev : ToolEvent) (sid : String)
    (ht : ev.tool_name = "Edit")
    (hoo : strContains ev.tool_input.old_string "<!-- snippet:" = true)
    (hno : strContains ev.tool_input.new_string "<!-- snippet:" = false)
    (hoc : strContains ev.tool_input.old_string "<!-- /snippet -->" = true)
    (hnc : strContains ev.tool_input.new_string "<!-- /snippet -->" = true)
    (hid : extractSnippetId ev.tool_input.old_string.data = some sid) :
    (protectSnippetMarkersMain (some ev)).verdict = Verdict.block ∧
    (protectSnippetMarkersMain (some ev)).exitCode = 0 ∧
    strContains (protectSnippetMarkersMain (some ev)).message ("'" ++ sid ++ "'") = true := by
  have hne : ev.tool_input.old_string ≠ "" := by
    intro he; rw [he] at hoo; exact absurd hoo (by decide)
  have hmain : protectSnippetMarkersMain (some ev) =
      { exitCode := 0, verdict := .block, message := snippetOpenRemovalMsg sid } := by
    simp [protectSnippetMarkersMain, ht, hne, hoo, hno, hoc, hnc, hid]
  rw [hmain]
  exact ⟨rfl, rfl, snippetOpenRemovalMsg_contains sid⟩

def c6Event : ToolEvent :=
  { tool_name := "Edit",
    tool_input := { file_path := "docs/guide.md",
                    old_string := "<!-- snippet: foo -->code<!-- /snippet -->",
                    new_string := "code<!-- /snippet -->" } }

theorem opening_removal_blocks_with_id_witness :
    (protectSnippetMarkersMain (some c6Event)).verdict = Verdict.block ∧
    (protectSnippetMarkersMain (some c6Event)).exitCode = 0 ∧
    strContains (protectSnippetMarkersMain (some c6Event)).message ("'" ++ "foo" ++ "'") = true :=
  opening_removal_blocks_with_id c6Event "foo" rfl (by decide) (by decide)
    (by decide) (by decide) (by decide)

/-- C7: on an Edit to a recognized test file where the `Assert.<word>`
    family count drops from 2 to 1, the assertion guard blocks with exit 2
    and its reason reports the counts "2 → 1". -/
theorem assertion_guard_blocks_on_decrease
    (ev : ToolEvent)
    (hf : is_test_file ev.tool_input.file_path = true)
    (h2 : countPat assertDotLen (pyLower ev.tool_input.old_string).data = 2)
    (h1 : countPat assertDotLen (pyLower ev.tool_input.new_string).data = 1) :
    (protectTestAssertionsMain (some ev)).exitCode = 2 ∧
    (protectTestAssertionsMain (some ev)).verdict = Verdict.block ∧
    strContains (protectTestAssertionsMain (some ev)).message "2 → 1" = true := by
  have hne : ev.tool_input.old_string ≠ "" := by
    intro he; rw [he] at h2; exact absurd h2 (by decide)
  have hcheck : check_assertion_removal ev.tool_input.old_string ev.tool_input.new_string =
      (true, "Removing " ++ "\\bAssert\\.\\w+" ++ " (" ++ toString 2 ++ " → " ++
        toString 1 ++ ")") := by
    unfold check_assertion_removal
    simp only [assertionFamilies, familyViolation, h2, h1]
    norm_num
  have hmain : protectTestAssertionsMain (some ev) =
      { exitCode := 2, verdict := .block,
        message := assertBoxMessage ("Removing " ++ "\\bAssert\\.\\w+" ++ " (" ++
          toString 2 ++ " → " ++ toString 1 ++ ")") } := by
    simp [protectTestAssertionsMain, hf, hne, hcheck]
  rw [hmain]
  refine ⟨rfl, rfl, ?_⟩
  decide

def c7Event : ToolEvent :=
  { tool_name := "Edit",
    tool_input := { file_path := "Foo/OrderTests.cs",
                    old_string := "Assert.Equal(1, 2); Assert.Equal(3, 4);",
                    new_string := "Assert.Equal(1, 2);" } }

theorem assertion_guard_blocks_on_decrease_witness :
    (protectTestAssertionsMain (some c7Event)).exitCode = 2 ∧
    (protectTestAssertionsMain (some c7Event)).verdict = Verdict.block ∧
    strContains (protectTestAssertionsMain (some c7Event)).message "2 → 1" = true :=
  assertion_guard_blocks_on_decrease c7Event (by decide) (by decide) (by decide)

end HookSpec
